import Mathlib

/-!
Verification of the PSL core (parser, L-rule validator, metrics calculator).

The Python sources are embedded shallowly: strings are Lean `String`s
manipulated through their underlying `List Char`, Python `dict`s (which
preserve insertion order) are association lists updated in place, Python
floats are modelled as exact rationals `ℚ`, and fallible code (a `KeyError`
on a missing mandatory header field, a pydantic `ValidationError` when a
constructor argument does not fit the declared field type) is modelled with
`Option`.
-/

/-! ## Python string primitives -/

/-- The whitespace characters stripped by Python `str.strip()`. -/
def isPySpace (c : Char) : Bool :=
  c = ' ' || c = '\t' || c = '\n' || c = '\r' || c = Char.ofNat 11 || c = Char.ofNat 12

/-- Python `str.strip()` on a character list. -/
def pyStripChars (cs : List Char) : List Char :=
  ((cs.dropWhile isPySpace).reverse.dropWhile isPySpace).reverse

/-- Python `str.strip()`. -/
def pyStrip (s : String) : String := String.mk (pyStripChars s.data)

/-- Python `str.rstrip()` (used by the full parser on every raw line). -/
def pyRstrip (s : String) : String :=
  String.mk ((s.data.reverse.dropWhile isPySpace).reverse)

/-- Python `str.lstrip(chars)`: drop leading characters belonging to `set`. -/
def pyLstrip (s : String) (set : List Char) : String :=
  String.mk (s.data.dropWhile (fun c => set.contains c))

/-- Python `str.lower()` restricted to ASCII case mapping (all the texts and
vocabularies the code compares are ASCII apart from the degree sign, which
`lower` leaves unchanged in both languages). -/
def pyLower (s : String) : String := String.mk (s.data.map Char.toLower)

/-- Auxiliary splitter: `splitCharAux c cs acc` is Python `str.split(c)` with
`acc` the (reversed) current chunk. -/
def splitCharAux (c : Char) : List Char → List Char → List (List Char)
  | [], acc => [acc.reverse]
  | x :: xs, acc =>
    if x = c then acc.reverse :: splitCharAux c xs []
    else splitCharAux c xs (x :: acc)

/-- Python `str.split(c)` for a single-character separator. -/
def pySplitChar (c : Char) (s : String) : List String :=
  (splitCharAux c s.data []).map String.mk

/-- Python `'\n'.join(lines)` (the argument lists produced here never contain
a newline, so joining and re-splitting is the identity; proved below). -/
def joinLines : List String → String
  | [] => ""
  | [l] => l
  | l :: ls => l ++ "\n" ++ joinLines ls

/-- Python `text.split('\n')`. -/
def pySplitLines (s : String) : List String := pySplitChar '\n' s

/-- Python `line.startswith(p)`. -/
def strStartsWith (s p : String) : Bool := p.data.isPrefixOf s.data

/-- Python `line.endswith(p)`. -/
def strEndsWith (s p : String) : Bool := p.data.isSuffixOf s.data

/-- `needle` occurs as a contiguous substring of the character list. -/
def infixCheck (needle : List Char) : List Char → Bool
  | [] => needle.isEmpty
  | c :: cs => needle.isPrefixOf (c :: cs) || infixCheck needle cs

/-- Python `needle in hay` on strings. -/
def strContains (hay needle : String) : Bool := infixCheck needle.data hay.data

/-- Python `line.split(sep, 1)[1]` for a single-character separator `sep` that
is known to occur (every caller first checks a prefix containing it). -/
def afterFirstChar (sep : Char) (s : String) : String :=
  String.mk ((s.data.dropWhile (fun c => c ≠ sep)).drop 1)

/-! ## The regex for unit-suffixed numbers

Both `l_rules.py` and `calculator.py` search items with
`re.search(r"\b\d+\.?\d*\s*(?:usd|min|g|kg|kcal|°C|mm|cm)\b", item, re.IGNORECASE)`
(the calculator's copy of the alternation additionally contains `serves`).
The pattern is fixed, so it is embedded as a direct decision procedure: a
match starts at a word boundary, reads one or more digits, an optional dot,
further digits, optional whitespace, then one of the unit words followed by a
word boundary.  Greedy matching is deterministic here because no unit word
starts with a digit, a dot or whitespace.  `\w` is taken as ASCII
alphanumerics plus underscore, which agrees with Python on all the texts
considered. -/

def isWordChar (c : Char) : Bool := c.isAlphanum || c = '_'

/-- The characters matched by `\s`. -/
def isRegexSpace (c : Char) : Bool := isPySpace c

/-- A word boundary holds after the end of input or before a non-word char. -/
def boundaryAfter : List Char → Bool
  | [] => true
  | c :: _ => !isWordChar c

/-- Try to match `\d+\.?\d*\s*(unit)\b` at the head of `cs` (the caller has
already checked the leading word boundary and that `cs` starts with a digit). -/
def numUnitHere (units : List (List Char)) (cs : List Char) : Bool :=
  let rest1 := cs.dropWhile Char.isDigit
  let rest2 := match rest1 with
    | '.' :: r => r.dropWhile Char.isDigit
    | _ => rest1
  let rest3 := rest2.dropWhile isRegexSpace
  units.any (fun u => u.isPrefixOf rest3 && boundaryAfter (rest3.drop u.length))

/-- Scan for a match anywhere; `prev` is the character before the current
position (`none` at the start of the string). -/
def numUnitSearch (units : List (List Char)) : Option Char → List Char → Bool
  | _, [] => false
  | prev, c :: cs =>
    ((match prev with
      | none => true
      | some p => !isWordChar p) && c.isDigit && numUnitHere units (c :: cs))
    || numUnitSearch units (some c) cs

/-- `re.search(pattern, item, re.IGNORECASE)` for the fixed unit pattern:
the item is lowered first, the unit vocabulary is already lowercase. -/
def matchesNumberUnit (units : List String) (item : String) : Bool :=
  numUnitSearch (units.map String.data) none (pyLower item).data

/-- The unit alternation of `l_rules.py` (rule L-03), lowercased. -/
def l03Units : List String := ["usd", "min", "g", "kg", "kcal", "°c", "mm", "cm"]

/-- The unit alternation of `calculator.py` (`_count_numbers_outside_fact`):
the L-03 vocabulary plus `serves`. -/
def hrrUnits : List String := l03Units ++ ["serves"]

/-! ## Data model (`src/ast/models.py`)

The pydantic `BaseModel`s are value types; pydantic validates the declared
field types when a model is constructed, so construction from ill-typed data
is fallible and appears below (in `PSLFullParser.parse`) as `Option`. -/

/-- `Constraint` of `models.py`: the float `value` is modelled exactly as `ℚ`. -/
structure Constraint where
  name : String
  operator : String
  value : ℚ
  unit : Option String
deriving DecidableEq

/-- `ThreeC` of `models.py`. -/
structure ThreeC where
  clear : Bool
  cheap : Bool
  safe : Bool
deriving DecidableEq

/-- `PSLDocument` of `models.py`.  `sections : Dict[str, List[str]]` is an
insertion-ordered map, embedded as an association list. -/
structure PSLDocument where
  version : String
  context : String
  goal : String
  constraints : List Constraint
  resources : Option (List String)
  skill : Option String
  sections : List (String × List String)
  three_c : Option ThreeC
  gloss : Option String
deriving DecidableEq

/-- A validator issue: `{'rule': ..., 'level': ..., 'message': ...}`. -/
structure Issue where
  rule : String
  level : String
  message : String
deriving DecidableEq

/-! ## Ordered dictionaries as association lists

Python dicts preserve insertion order; assigning to an existing key keeps its
position.  `alUpdate` mirrors `d[k] = v` and `alGet` mirrors `d.get(k)`. -/

/-- `d[k] = v` on an insertion-ordered dict. -/
def alUpdate {α : Type} : List (String × α) → String → α → List (String × α)
  | [], k, v => [(k, v)]
  | (k₀, v₀) :: rest, k, v =>
    if k₀ = k then (k, v) :: rest else (k₀, v₀) :: alUpdate rest k v

/-- `d.get(k)` on an insertion-ordered dict. -/
def alGet {α : Type} : List (String × α) → String → Option α
  | [], _ => none
  | (k₀, v₀) :: rest, k => if k₀ = k then some v₀ else alGet rest k

theorem alGet_alUpdate {α : Type} (l : List (String × α)) (k k₁ : String) (v : α) :
    alGet (alUpdate l k v) k₁ = if k = k₁ then some v else alGet l k₁ := by
  induction l with
  | nil => by_cases h : k = k₁ <;> simp [alUpdate, alGet, h]
  | cons p rest ih =>
    obtain ⟨k₀, v₀⟩ := p
    by_cases h0 : k₀ = k
    · subst h0
      by_cases h : k₀ = k₁ <;> simp [alUpdate, alGet, h]
    · by_cases h : k₀ = k₁
      · subst h
        have : ¬ k = k₀ := fun hh => h0 hh.symm
        simp [alUpdate, alGet, h0, this]
      · simp [alUpdate, alGet, h0, h, ih]

/-! ## Header parser (`src/parser/header_parser.py`) -/

/-- The key-value structure produced by `PSLHeaderParser.parse`: absent keys
of the Python result dict are `none`. -/
structure RawHeader where
  version : Option String
  context : Option String
  goal : Option String
  constraints : Option (List String)
  resources : Option (List String)
  skill : Option String
deriving DecidableEq

/-- The empty result dict. -/
def RawHeader.empty : RawHeader := ⟨none, none, none, none, none, none⟩

namespace PSLHeaderParser

/-- `_parse_version`: `line.split('v')[-1].strip()`. -/
def _parse_version (line : String) : String :=
  pyStrip ((pySplitChar 'v' line).getLastD "")

/-- `_parse_constraints`: split the text after the first `:` on `;`, strip,
drop empties. -/
def _parse_constraints (line : String) : List String :=
  ((pySplitChar ';' (pyStrip (afterFirstChar ':' line))).map pyStrip).filter
    (fun c => c ≠ "")

/-- `_parse_resources`: strip optional enclosing brackets, split on `,`. -/
def _parse_resources (line : String) : List String :=
  let s := pyStrip (afterFirstChar ':' line)
  let s := if strStartsWith s "[" && strEndsWith s "]" then
    String.mk (s.data.drop 1 |>.dropLast) else s
  ((pySplitChar ',' s).map pyStrip).filter (fun r => r ≠ "")

/-- `_parse_skill`. -/
def _parse_skill (line : String) : String := pyStrip (afterFirstChar ':' line)

/-- One iteration of the classification loop in `PSLHeaderParser.parse`. -/
def parseLine (r : RawHeader) (line : String) : RawHeader :=
  if strStartsWith line "!psl" then { r with version := some (_parse_version line) }
  else if strStartsWith line "context:" then
    { r with context := some (pyStrip (afterFirstChar ':' line)) }
  else if strStartsWith line "goal:" then
    { r with goal := some (pyStrip (afterFirstChar ':' line)) }
  else if strStartsWith line "constraints:" then
    { r with constraints := some (_parse_constraints line) }
  else if strStartsWith line "resources:" then
    { r with resources := some (_parse_resources line) }
  else if strStartsWith line "skill:" then
    { r with skill := some (_parse_skill line) }
  else r

/-- `PSLHeaderParser.parse`: strip the lines, drop blank ones, classify each
by its prefix (later duplicates overwrite earlier ones, as dict assignment
does). -/
def parse (header_text : String) : RawHeader :=
  let lines := ((pySplitLines header_text).map pyStrip).filter (fun l => l ≠ "")
  lines.foldl parseLine RawHeader.empty

end PSLHeaderParser

/-! ## Constraint structuring (modelled) -/

/-- Find the leftmost occurrence of one of the five operators, longest first
at each position; return the characters before it, the operator, the rest. -/
def findOperator : List Char → Option (List Char × String × List Char)
  | [] => none
  | '<' :: '=' :: rest => some ([], "<=", rest)
  | '>' :: '=' :: rest => some ([], ">=", rest)
  | '<' :: rest => some ([], "<", rest)
  | '>' :: rest => some ([], ">", rest)
  | '=' :: rest => some ([], "=", rest)
  | c :: rest => (findOperator rest).map (fun p => (c :: p.1, p.2.1, p.2.2))

/-- Digits to a natural number (most significant first). -/
def digitsToNat (ds : List Char) : Nat :=
  ds.foldl (fun n c => 10 * n + (c.toNat - 48)) 0

/-- Parse a decimal literal `\d+(\.\d*)?` exactly into `ℚ`; `none` when the
text does not start with a digit.  The remainder after the literal is
returned alongside. -/
def parseDecimal (cs : List Char) : Option (ℚ × List Char) :=
  let intDigits := cs.takeWhile Char.isDigit
  if intDigits.isEmpty then none
  else
    let rest := cs.dropWhile Char.isDigit
    match rest with
    | '.' :: r =>
      let fracDigits := r.takeWhile Char.isDigit
      some ((digitsToNat intDigits : ℚ) +
        (digitsToNat fracDigits : ℚ) / ((10 : ℚ) ^ fracDigits.length),
        r.dropWhile Char.isDigit)
    | _ => some ((digitsToNat intDigits : ℚ), rest)

/-- Modelled from the spec: the structuring of a raw constraint string such
as `time<=90min` into a `Constraint` (the `_parse_header` helper that does
this inside `PSLFullParser` is absent from `src/`).  Per the spec's data
model: the operator must be one of the five recognized tokens, the value is
the number after it, the unit is the optional trailing text, and unparseable
constraints are dropped rather than fatal. -/
def parseConstraint (raw : String) : Option Constraint :=
  match findOperator raw.data with
  | none => none
  | some (nameChars, op, rest) =>
    match parseDecimal (pyStripChars rest) with
    | none => none
    | some (v, after) =>
      let u := pyStripChars after
      some ⟨String.mk (pyStripChars nameChars), op, v,
        if u.isEmpty then none else some (String.mk u)⟩

/-! ## Full parser (`src/parser/full_parser.py`) -/

/-- A value of the `sections` dict built by `_parse_sections`: normally a
list of item strings, but the 3C special case stores a `ThreeC` object. -/
inductive SecVal where
  | items (xs : List String)
  | tc (t : ThreeC)
deriving DecidableEq

namespace PSLFullParser

/-- `_parse_three_c`: case-insensitive substring search over the whole text
it is handed. -/
def _parse_three_c (text : String) : ThreeC :=
  ⟨strContains (pyLower text) "clear: yes",
   strContains (pyLower text) "cheap: yes",
   strContains (pyLower text) "safe: yes"⟩

/-- Is the stripped line a section header `[...]`? -/
def isTagLine (line : String) : Bool :=
  strStartsWith line "[" && strEndsWith line "]"

/-- The tag of a header line: `line[1:-1].split(':')[0]`. -/
def tagOf (line : String) : String :=
  String.mk ((line.data.drop 1 |>.dropLast).takeWhile (fun c => c ≠ ':'))

/-- Is the stripped line a list item (`startswith(('-', '1)', '2)'))`)? -/
def isItemLine (line : String) : Bool :=
  strStartsWith line "-" || strStartsWith line "1)" || strStartsWith line "2)"

/-- The stored item: `line.lstrip('- ').lstrip('1234567890) ')`. -/
def stripMarkers (line : String) : String :=
  pyLstrip (pyLstrip line ['-', ' '])
    ['1', '2', '3', '4', '5', '6', '7', '8', '9', '0', ')', ' ']

/-- Python truthiness of the `current_section` variable, as tested by
`if current_section:` and `current_section and ...`: both `None` and the
empty string (the tag of a `[]` line) are falsy. -/
def curTruthy : Option String → Bool
  | none => false
  | some s => s != ""

/-- The loop of `_parse_sections` over the remaining lines, carrying the
current section name, its accumulated items and the dict built so far.
`text` is the full argument of `_parse_sections`, handed unchanged to
`_parse_three_c`.  The commit of the previous section (`if current_section:`)
and the item branch (`current_section and ...`) test Python truthiness, so a
falsy empty section name is never committed and swallows its item lines.
The 3C branch returns immediately: it models the `break` (the final flush is
applied by `_parse_sections` itself). -/
def scanLines (text : String) :
    Option String → List String → List (String × SecVal) → List String →
    Option String × List String × List (String × SecVal)
  | cur, items, secs, [] => (cur, items, secs)
  | cur, items, secs, l :: rest =>
    let line := pyStrip l
    if line = "" then scanLines text cur items secs rest
    else if isTagLine line then
      let secs := match cur with
        | some s => if s = "" then secs else alUpdate secs s (SecVal.items items)
        | none => secs
      scanLines text (some (tagOf line)) [] secs rest
    else if curTruthy cur && isItemLine line then
      scanLines text cur (items ++ [stripMarkers line]) secs rest
    else if cur = some "3C" && strContains line ":" then
      (cur, items, alUpdate secs "3C" (SecVal.tc (_parse_three_c text)))
    else scanLines text cur items secs rest

/-- The final flush, `if current_section and current_items:` — the section
still open at the end of the loop is committed only when its name is truthy
and it accumulated at least one item. -/
def finishScan : Option String × List String × List (String × SecVal) →
    List (String × SecVal)
  | (some s, items, secs) =>
    if s ≠ "" ∧ items ≠ [] then alUpdate secs s (SecVal.items items) else secs
  | (none, _, secs) => secs

/-- `_parse_sections`. -/
def _parse_sections (text : String) : List (String × SecVal) :=
  finishScan (scanLines text none [] [] (pySplitLines text))

/-- Modelled from the spec: `_find_header_end` is absent from `src/`; per the
spec the header is all lines before the first line beginning with `[`. -/
def _find_header_end : List String → Nat
  | [] => 0
  | l :: ls => if strStartsWith l "[" then 0 else _find_header_end ls + 1

/-- The header key-value data used by `parse`: raw fields as produced by the
header parser, with the constraints structured. -/
structure HeaderData where
  version : Option String
  context : Option String
  goal : Option String
  constraints : Option (List Constraint)
  resources : Option (List String)
  skill : Option String

/-- Modelled from the spec: `_parse_header` is absent from `src/`.  Per the
spec it parses the header block into the key-value structure of §4.1 (the
behaviour of `PSLHeaderParser`, which is in `src/` and embedded above) and
structures each raw constraint string per the data model, dropping
unparseable ones. -/
def _parse_header (header_text : String) : HeaderData :=
  let raw := PSLHeaderParser.parse header_text
  ⟨raw.version, raw.context, raw.goal,
   raw.constraints.map (fun cs => cs.filterMap parseConstraint),
   raw.resources, raw.skill⟩

/-- Pydantic validation of `sections : Dict[str, List[str]]`: every value of
the dict built by `_parse_sections` must be a list of strings; a `ThreeC`
object stored by the 3C special case does not fit and raises. -/
def pydanticSectionsField : List (String × SecVal) → Option (List (String × List String))
  | [] => some []
  | (k, SecVal.items xs) :: rest =>
    (pydanticSectionsField rest).map (fun r => (k, xs) :: r)
  | (_, SecVal.tc _) :: _ => none

/-- Pydantic validation of `three_c : Optional[ThreeC]` against
`sections_data.get('3C')`: absent is fine, a `ThreeC` is fine, a plain item
list does not fit and raises. -/
def pydanticThreeCField : Option SecVal → Option (Option ThreeC)
  | none => some none
  | some (SecVal.tc t) => some (some t)
  | some (SecVal.items _) => none

/-- Pydantic validation of `gloss : Optional[str]` against
`sections_data.get('GLOSS')`: absent is fine; a committed GLOSS section is an
item list, which does not fit `Optional[str]` and raises. -/
def pydanticGlossField : Option SecVal → Option (Option String)
  | none => some none
  | some _ => none

/-- The `header_text` local of `parse`: the rstripped lines before the first
line beginning with `[`, rejoined with newlines. -/
def headerText (psl_text : String) : String :=
  let lines := (pySplitLines psl_text).map pyRstrip
  joinLines (lines.take (_find_header_end lines))

/-- The `sections_text` local of `parse`: the remaining rstripped lines,
rejoined with newlines. -/
def sectionsText (psl_text : String) : String :=
  let lines := (pySplitLines psl_text).map pyRstrip
  joinLines (lines.drop (_find_header_end lines))

/-- `PSLFullParser.parse`.  The subscript accesses
`header_data['version']`/`['context']`/`['goal']`/`['constraints']` raise
`KeyError` when the key is absent, and `PSLDocument(...)` raises a pydantic
`ValidationError` when an argument does not fit its declared type; both kinds
of exception are modelled by `none`.  The header and section halves are the
joined line lists; `_parse_header` and `_parse_sections` split them again. -/
def parse (psl_text : String) : Option PSLDocument :=
  let header_data := _parse_header (headerText psl_text)
  let sections_data := _parse_sections (sectionsText psl_text)
  match header_data.version, header_data.context, header_data.goal,
      header_data.constraints with
  | some v, some c, some g, some cons =>
    match pydanticSectionsField sections_data,
        pydanticThreeCField (alGet sections_data "3C"),
        pydanticGlossField (alGet sections_data "GLOSS") with
    | some secs, some tc, some gl =>
      some ⟨v, c, g, cons, header_data.resources, header_data.skill, secs, tc, gl⟩
    | _, _, _ => none
  | _, _, _, _ => none

end PSLFullParser

/-! ## L-rule validator (`src/validator/l_rules.py`)

Each `_validate_*` method appends its issues to `self.issues`; every method
is embedded as a function from the document and the issue list so far to the
extended issue list, written as `issues ++ body` where the body is the
method's own contribution. -/

/-- Python `str(['a', 'b'])` for a list of strings. -/
def pyJoinComma : List String → String
  | [] => ""
  | [x] => x
  | x :: xs => x ++ ", " ++ pyJoinComma xs

/-- Python `repr` of a list of strings, as used in the L-01 f-string. -/
def pyStrList (xs : List String) : String :=
  "[" ++ pyJoinComma (xs.map (fun s => "'" ++ s ++ "'")) ++ "]"

namespace LRuleValidator

/-- The canonical tag order of L-01. -/
def expected_order : List String :=
  ["FACT", "TECHNIQUE", "HYP", "ROLLBACK", "SAFETY", "ASSUMPTIONS",
   "CHECKLIST", "3C", "GLOSS"]

/-- The issues produced by L-01 alone. -/
def l01Body (doc : PSLDocument) : List Issue :=
  let actual_sections := (doc.sections.map Prod.fst).filter
    (fun s => expected_order.contains s)
  let expected_actual := expected_order.filter
    (fun s => actual_sections.contains s)
  if actual_sections ≠ expected_actual then
    [⟨"L-01", "error", "Section order violation. Expected: " ++
      pyStrList expected_actual ++ ", Got: " ++ pyStrList actual_sections⟩]
  else []

/-- `_validate_l01_section_order`. -/
def _validate_l01_section_order (doc : PSLDocument) (issues : List Issue) :
    List Issue := issues ++ l01Body doc

/-- `len(doc.sections.get('HYP', []))`. -/
def hypCount (doc : PSLDocument) : Nat :=
  ((alGet doc.sections "HYP").getD []).length

/-- `len(doc.sections.get('ROLLBACK', []))`. -/
def rollbackCount (doc : PSLDocument) : Nat :=
  ((alGet doc.sections "ROLLBACK").getD []).length

/-- The L-02 mismatch message, with both counts. -/
def l02Message (h r : Nat) : String :=
  "HYP/ROLLBACK count mismatch. HYP: " ++ toString h ++
    ", ROLLBACK: " ++ toString r

/-- The issues produced by L-02 alone. -/
def l02Body (doc : PSLDocument) : List Issue :=
  if hypCount doc ≠ rollbackCount doc then
    [⟨"L-02", "error", l02Message (hypCount doc) (rollbackCount doc)⟩]
  else []

/-- `_validate_l02_hyp_rollback_pairing`. -/
def _validate_l02_hyp_rollback_pairing (doc : PSLDocument) (issues : List Issue) :
    List Issue := issues ++ l02Body doc

/-- The issues produced by L-03 alone: one warning per item of a non-FACT
section matching the unit pattern, in section then item order. -/
def l03Body (doc : PSLDocument) : List Issue :=
  doc.sections.flatMap (fun p =>
    if p.1 = "FACT" then []
    else (p.2.filter (matchesNumberUnit l03Units)).map (fun item =>
      ⟨"L-03", "warning", "Number found in [" ++ p.1 ++ "]: " ++ item⟩))

/-- `_validate_l03_numbers_outside_fact`. -/
def _validate_l03_numbers_outside_fact (doc : PSLDocument) (issues : List Issue) :
    List Issue := issues ++ l03Body doc

/-- Modelled from the spec: the L-04 unit-normalization consistency check (the
method body is absent from `src/`); flags constraints whose unit lies outside
the canonical unit vocabulary. -/
def l04Body (doc : PSLDocument) : List Issue :=
  (doc.constraints.filter (fun c => match c.unit with
    | some u => !(l03Units.contains (pyLower u))
    | none => false)).map (fun c =>
      ⟨"L-04", "warning", "Unit not normalized: " ++ c.name⟩)

/-- Modelled from the spec: L-04 runs as the other rules do. -/
def _validate_l04_unit_normalization (doc : PSLDocument) (issues : List Issue) :
    List Issue := issues ++ l04Body doc

/-- Modelled from the spec: the L-05 constraint parseability check (absent
from `src/`); flags constraints whose operator is not one of the five
recognized tokens. -/
def l05Body (doc : PSLDocument) : List Issue :=
  (doc.constraints.filter (fun c =>
    !(["<=", ">=", "<", ">", "="].contains c.operator))).map (fun c =>
      ⟨"L-05", "error", "Unparseable constraint: " ++ c.name⟩)

/-- Modelled from the spec: L-05 runs as the other rules do. -/
def _validate_l05_constraints_parsing (doc : PSLDocument) (issues : List Issue) :
    List Issue := issues ++ l05Body doc

/-- Modelled from the spec: the L-06 checklist-to-constraint traceability
check (absent from `src/`); flags constraints whose name appears in no
CHECKLIST item. -/
def l06Body (doc : PSLDocument) : List Issue :=
  let checklist := (alGet doc.sections "CHECKLIST").getD []
  (doc.constraints.filter (fun c =>
    !(checklist.any (fun item => strContains item c.name)))).map (fun c =>
      ⟨"L-06", "warning", "Constraint not traced in CHECKLIST: " ++ c.name⟩)

/-- Modelled from the spec: L-06 runs as the other rules do. -/
def _validate_l06_checklist_constraints_link (doc : PSLDocument) (issues : List Issue) :
    List Issue := issues ++ l06Body doc

/-- Modelled from the spec: the L-07 3C completeness check (absent from
`src/`); a 3C section that did not produce a structured `ThreeC` is an error. -/
def l07Body (doc : PSLDocument) : List Issue :=
  if (alGet doc.sections "3C").isSome && doc.three_c.isNone then
    [⟨"L-07", "error", "3C section incomplete"⟩]
  else []

/-- Modelled from the spec: L-07 runs as the other rules do. -/
def _validate_l07_three_c_completeness (doc : PSLDocument) (issues : List Issue) :
    List Issue := issues ++ l07Body doc

/-- The risk keyword vocabulary shared with the metrics calculator. -/
def riskKeywords : List String :=
  ["allerg", "danger", "risk", "safe", "toxic", "harm", "warn"]

/-- A constraint's contribution to the risk scan: the keywords are searched
in the lowered `f"{name} {operator} {value} {unit or ''}"`; since no keyword
contains a space or a digit, searching the space-joined string is searching
its textual components, and the numeric rendering of `value` can never
contain a hit. -/
def constraintHasRisk (c : Constraint) : Bool :=
  riskKeywords.any (fun k =>
    strContains (pyLower c.name) k || strContains (pyLower c.operator) k ||
    strContains (pyLower (c.unit.getD "")) k)

/-- `_has_risk_constraints` of the metrics calculator (also used to model
L-08): any risk keyword in a constraint or in any section item. -/
def hasRiskLanguage (doc : PSLDocument) : Bool :=
  doc.constraints.any constraintHasRisk ||
  doc.sections.any (fun p => p.2.any (fun item =>
    riskKeywords.any (fun k => strContains (pyLower item) k)))

/-- Modelled from the spec: the L-08 safety requirement check (absent from
`src/`); risk-indicating language with no SAFETY section is an error. -/
def l08Body (doc : PSLDocument) : List Issue :=
  if hasRiskLanguage doc && (alGet doc.sections "SAFETY").isNone then
    [⟨"L-08", "error", "Risk language present but no SAFETY section"⟩]
  else []

/-- Modelled from the spec: L-08 runs as the other rules do. -/
def _validate_l08_safety_requirements (doc : PSLDocument) (issues : List Issue) :
    List Issue := issues ++ l08Body doc

/-- Modelled from the spec: the L-09 duplicate-item check (absent from
`src/`); one warning per section containing a repeated item. -/
def l09Body (doc : PSLDocument) : List Issue :=
  doc.sections.filterMap (fun p =>
    if p.2.eraseDups.length ≠ p.2.length then
      some ⟨"L-09", "warning", "Duplicate items in [" ++ p.1 ++ "]"⟩
    else none)

/-- Modelled from the spec: L-09 runs as the other rules do. -/
def _validate_l09_duplicate_items (doc : PSLDocument) (issues : List Issue) :
    List Issue := issues ++ l09Body doc

/-- Modelled from the spec: the L-10 sentence clarity heuristic (absent from
`src/`); one warning per item longer than 160 characters. -/
def l10Body (doc : PSLDocument) : List Issue :=
  doc.sections.flatMap (fun p =>
    (p.2.filter (fun item => 160 < item.data.length)).map (fun _ =>
      ⟨"L-10", "warning", "Sentence too long in [" ++ p.1 ++ "]"⟩))

/-- Modelled from the spec: L-10 runs as the other rules do. -/
def _validate_l10_sentence_clarity (doc : PSLDocument) (issues : List Issue) :
    List Issue := issues ++ l10Body doc

/-- `LRuleValidator.validate`: reset the issue list, run the ten checks in
order, each appending to the list, and return it. -/
def validate (doc : PSLDocument) : List Issue :=
  _validate_l10_sentence_clarity doc
    (_validate_l09_duplicate_items doc
      (_validate_l08_safety_requirements doc
        (_validate_l07_three_c_completeness doc
          (_validate_l06_checklist_constraints_link doc
            (_validate_l05_constraints_parsing doc
              (_validate_l04_unit_normalization doc
                (_validate_l03_numbers_outside_fact doc
                  (_validate_l02_hyp_rollback_pairing doc
                    (_validate_l01_section_order doc [])))))))))

end LRuleValidator

/-! ## Metrics calculator (`src/metrics/calculator.py`) -/

namespace PSLMetricsCalculator

/-- `_is_constraint_satisfied`: compare the observed value with the stated
one under the constraint's operator; unknown operators are never satisfied.
(The Python `try/except` guards non-numeric observed values, which are
outside this embedding's `ℚ`-valued execution results.) -/
def _is_constraint_satisfied (c : Constraint) (actual : ℚ) : Bool :=
  if c.operator = "<=" then actual ≤ c.value
  else if c.operator = ">=" then actual ≥ c.value
  else if c.operator = "<" then actual < c.value
  else if c.operator = ">" then actual > c.value
  else if c.operator = "=" then actual = c.value
  else false

/-- `calculate_csr`.  `execution_result` is an optional dict from constraint
names to observed values; Python's `if not execution_result` is true both
for `None` and for an empty dict. -/
def calculate_csr (doc : PSLDocument) (execution_result : Option (List (String × ℚ))) : ℚ :=
  if doc.constraints = [] then 1
  else match execution_result with
    | none => 0
    | some m =>
      if m = [] then 0
      else (doc.constraints.countP (fun c => match alGet m c.name with
        | none => false
        | some v => _is_constraint_satisfied c v) : ℚ) / (doc.constraints.length : ℚ)

/-- `_count_numbers_outside_fact`: one count per item of a non-FACT section
matching the extended unit pattern (the one with `serves`). -/
def _count_numbers_outside_fact (doc : PSLDocument) : Nat :=
  (doc.sections.map (fun p =>
    if p.1 = "FACT" then 0
    else p.2.countP (matchesNumberUnit hrrUnits))).sum

/-- `_has_risk_constraints` (shared embedding with the modelled L-08). -/
def _has_risk_constraints (doc : PSLDocument) : Bool :=
  LRuleValidator.hasRiskLanguage doc

/-- `calculate_hrr`: start from 1.0, subtract 0.1 per unit-bearing number
outside FACT, 0.2 flat for a HYP/ROLLBACK count mismatch, 0.15 flat for risk
language with no SAFETY section; floor at 0. -/
def calculate_hrr (doc : PSLDocument) : ℚ :=
  let n := _count_numbers_outside_fact doc
  let p1 : ℚ := if 0 < n then (n : ℚ) * (1 / 10) else 0
  let p2 : ℚ := if LRuleValidator.hypCount doc ≠ LRuleValidator.rollbackCount doc
    then 2 / 10 else 0
  let p3 : ℚ := if _has_risk_constraints doc && (alGet doc.sections "SAFETY").isNone
    then 15 / 100 else 0
  max 0 (1 - (p1 + p2 + p3))

/-- The mandatory section list of `calculate_psl_coverage`. -/
def mandatory_sections : List String :=
  ["FACT", "TECHNIQUE", "HYP", "ROLLBACK", "SAFETY", "CHECKLIST", "3C"]

/-- Is the mandatory tag counted as completed?  It must be a key of
`sections`, and for `3C` the document must also carry a structured `three_c`. -/
def sectionCompleted (doc : PSLDocument) (s : String) : Bool :=
  (alGet doc.sections s).isSome &&
    (if s = "3C" then doc.three_c.isSome else true)

/-- `calculate_psl_coverage`: completed mandatory tags over seven. -/
def calculate_psl_coverage (doc : PSLDocument) : ℚ :=
  (mandatory_sections.countP (sectionCompleted doc) : ℚ) /
    (mandatory_sections.length : ℚ)

/-- `calculate_three_c_score`: 0 with no `ThreeC`, else 0.34 for clear plus
0.33 each for cheap and safe. -/
def calculate_three_c_score (doc : PSLDocument) : ℚ :=
  match doc.three_c with
  | none => 0
  | some t =>
    (if t.clear then (34 : ℚ) / 100 else 0) +
    (if t.cheap then (33 : ℚ) / 100 else 0) +
    (if t.safe then (33 : ℚ) / 100 else 0)

end PSLMetricsCalculator

/-! ## Concrete documents used by witnesses and counterexamples -/

/-- A document whose only content is a `ThreeC` with cheap and safe set. -/
def threeCDoc : PSLDocument := ⟨"", "", "", [], none, none, [], some ⟨false, true, true⟩, none⟩

/-- A document with one TECHNIQUE item `6 serves` and nothing else. -/
def hrrDoc : PSLDocument :=
  ⟨"", "", "", [], none, none, [("TECHNIQUE", ["6 serves"])], none, none⟩

/-- A document with one HYP item and no ROLLBACK section. -/
def pairDoc : PSLDocument := ⟨"", "", "", [], none, none, [("HYP", ["a"])], none, none⟩

/-- The empty document. -/
def emptyDoc : PSLDocument := ⟨"", "", "", [], none, none, [], none, none⟩

/-- `if b then 1 else 0`, the numeric reading of a boolean flag. -/
def boolToRat (b : Bool) : ℚ := if b then 1 else 0

/-- C2: `validate` runs all ten checks L-01..L-10; each check appends zero or
more Issues without short-circuiting the others, and the result is the
ordered concatenation of the ten independent contributions. -/
theorem claim_C2_validate_runs_all_rules (d : PSLDocument) :
    LRuleValidator.validate d =
      LRuleValidator.l01Body d ++ LRuleValidator.l02Body d ++
      LRuleValidator.l03Body d ++ LRuleValidator.l04Body d ++
      LRuleValidator.l05Body d ++ LRuleValidator.l06Body d ++
      LRuleValidator.l07Body d ++ LRuleValidator.l08Body d ++
      LRuleValidator.l09Body d ++ LRuleValidator.l10Body d := by
  simp only [LRuleValidator.validate,
    LRuleValidator._validate_l01_section_order,
    LRuleValidator._validate_l02_hyp_rollback_pairing,
    LRuleValidator._validate_l03_numbers_outside_fact,
    LRuleValidator._validate_l04_unit_normalization,
    LRuleValidator._validate_l05_constraints_parsing,
    LRuleValidator._validate_l06_checklist_constraints_link,
    LRuleValidator._validate_l07_three_c_completeness,
    LRuleValidator._validate_l08_safety_requirements,
    LRuleValidator._validate_l09_duplicate_items,
    LRuleValidator._validate_l10_sentence_clarity,
    List.nil_append, List.append_assoc]

/-- C3: CSR is 1 on an empty constraint list, 0 with constraints but no
execution result, and otherwise the number of constraints whose operator
holds of the observed value over the total count, unobserved constraints
counting toward the denominator only. -/
theorem claim_C3_csr (d : PSLDocument) (er : Option (List (String × ℚ))) :
    (d.constraints = [] → PSLMetricsCalculator.calculate_csr d er = 1) ∧
    (d.constraints ≠ [] → er = none → PSLMetricsCalculator.calculate_csr d er = 0) ∧
    (∀ m, er = some m → d.constraints ≠ [] →
      PSLMetricsCalculator.calculate_csr d er =
        (d.constraints.countP (fun c =>
          Option.any (fun v => PSLMetricsCalculator._is_constraint_satisfied c v)
            (alGet m c.name)) : ℚ) / (d.constraints.length : ℚ)) := by
  refine ⟨fun h => ?_, fun h1 h2 => ?_, fun m hm h1 => ?_⟩
  · simp [PSLMetricsCalculator.calculate_csr, h]
  · subst h2; simp [PSLMetricsCalculator.calculate_csr, h1]
  · subst hm
    have hpred : ∀ c ∈ d.constraints,
        ((match alGet m c.name with
          | none => false
          | some v => PSLMetricsCalculator._is_constraint_satisfied c v) = true ↔
        Option.any (fun v => PSLMetricsCalculator._is_constraint_satisfied c v)
          (alGet m c.name) = true) := by
      intro c _; cases alGet m c.name <;> simp
    have hcong := List.countP_congr hpred
    by_cases hm0 : m = []
    · subst hm0
      have hz : (d.constraints.countP (fun c =>
          Option.any (fun v => PSLMetricsCalculator._is_constraint_satisfied c v)
            (alGet ([] : List (String × ℚ)) c.name))) = 0 := by
        apply List.countP_eq_zero.mpr
        intro c _
        simp [alGet]
      rw [hz]
      simp [PSLMetricsCalculator.calculate_csr, h1]
    · simp [PSLMetricsCalculator.calculate_csr, h1, hm0, hcong]

/-- C4 counterexample: `hrrDoc` has no L-03 violation, equal HYP/ROLLBACK
counts, and no risk language, so the claimed formula gives 1.0, but
`calculate_hrr` counts `6 serves` with its extended unit vocabulary and
returns 0.9. -/
def claimedHrr (d : PSLDocument) : ℚ :=
  max 0 (1 - (((LRuleValidator.l03Body d).length : ℚ) * (1 / 10) +
    (if LRuleValidator.hypCount d ≠ LRuleValidator.rollbackCount d then 2 / 10 else 0) +
    (if PSLMetricsCalculator._has_risk_constraints d &&
        (alGet d.sections "SAFETY").isNone then 15 / 100 else 0)))

/-- C4: the claim's own HRR formula (0.1 per L-03 violation) disagrees with
the code on `hrrDoc`: the code's counter also recognizes `serves`. -/
theorem claim_C4_counterexample :
    PSLMetricsCalculator.calculate_hrr hrrDoc = 9 / 10 ∧ claimedHrr hrrDoc = 1 := by
  have hc : PSLMetricsCalculator._count_numbers_outside_fact hrrDoc = 1 := by decide
  have hl : LRuleValidator.l03Body hrrDoc = [] := by decide
  have hp : LRuleValidator.hypCount hrrDoc = LRuleValidator.rollbackCount hrrDoc := by
    decide
  have hr : PSLMetricsCalculator._has_risk_constraints hrrDoc = false := by decide
  constructor
  · rw [PSLMetricsCalculator.calculate_hrr]
    simp only [hc, hp, hr]
    rw [max_eq_right (by norm_num)]
    norm_num
  · rw [claimedHrr]
    simp only [hl, hp, hr]
    rw [max_eq_right (by norm_num)]
    norm_num

/-- The closed form of `calculate_hrr`: the `if 0 < n` guard around the first
penalty is redundant. -/
theorem calculate_hrr_formula (d : PSLDocument) :
    PSLMetricsCalculator.calculate_hrr d = max 0 (1 -
      ((PSLMetricsCalculator._count_numbers_outside_fact d : ℚ) * (1 / 10) +
       (if LRuleValidator.hypCount d ≠ LRuleValidator.rollbackCount d then 2 / 10 else 0) +
       (if PSLMetricsCalculator._has_risk_constraints d &&
           (alGet d.sections "SAFETY").isNone then 15 / 100 else 0))) := by
  rw [PSLMetricsCalculator.calculate_hrr]
  by_cases hn : PSLMetricsCalculator._count_numbers_outside_fact d = 0
  · simp [hn]
  · simp [Nat.pos_of_ne_zero hn]

/-- C4 amended: HRR follows the stated formula with the count taken per item
outside FACT matching the extended pattern (unit vocabulary including
`serves`); with zero such items, equal HYP/ROLLBACK counts and no unaddressed
risk language the score is exactly 1. -/
theorem claim_C4_amended (d : PSLDocument) :
    (PSLMetricsCalculator.calculate_hrr d = max 0 (1 -
      ((PSLMetricsCalculator._count_numbers_outside_fact d : ℚ) * (1 / 10) +
       (if LRuleValidator.hypCount d ≠ LRuleValidator.rollbackCount d then 2 / 10 else 0) +
       (if PSLMetricsCalculator._has_risk_constraints d &&
           (alGet d.sections "SAFETY").isNone then 15 / 100 else 0)))) ∧
    (PSLMetricsCalculator._count_numbers_outside_fact d = 0 →
      LRuleValidator.hypCount d = LRuleValidator.rollbackCount d →
      (PSLMetricsCalculator._has_risk_constraints d = false ∨
        (alGet d.sections "SAFETY").isSome) →
      PSLMetricsCalculator.calculate_hrr d = 1) := by
  refine ⟨calculate_hrr_formula d, fun h0 h1 h2 => ?_⟩
  have hrisk : (PSLMetricsCalculator._has_risk_constraints d &&
      (alGet d.sections "SAFETY").isNone) = false := by
    rcases h2 with h | h
    · simp [h]
    · rcases Option.isSome_iff_exists.mp h with ⟨v, hv⟩
      simp [hv]
  rw [calculate_hrr_formula, h0, h1, hrisk]
  simp only [ne_eq, not_true_eq_false, if_false, Bool.false_eq_true, Nat.cast_zero]
  rw [max_eq_right (by norm_num)]
  norm_num

/-- C4 witness for the amended statement: the empty document scores 1. -/
theorem claim_C4_witness : PSLMetricsCalculator.calculate_hrr emptyDoc = 1 :=
  (claim_C4_amended emptyDoc).2 rfl rfl (Or.inl rfl)

/-- C5 counterexample: cheap and safe without clear gives 0.66, which the
claim's value set does not contain. -/
theorem claim_C5_counterexample :
    PSLMetricsCalculator.calculate_three_c_score threeCDoc = 33 / 50 ∧
    ¬ ((33 : ℚ) / 50 ∈ ([0, 33 / 100, 34 / 100, 67 / 100, 1] : List ℚ)) := by
  constructor
  · simp only [PSLMetricsCalculator.calculate_three_c_score, threeCDoc]
    norm_num
  · simp only [List.mem_cons, List.not_mem_nil, or_false]
    push_neg
    norm_num

/-- C5 amended: the score is 0 with no ThreeC, otherwise
0.34·clear + 0.33·cheap + 0.33·safe, and it always lies in
{0, 0.33, 0.34, 0.66, 0.67, 1}. -/
theorem claim_C5_amended (d : PSLDocument) :
    (d.three_c = none → PSLMetricsCalculator.calculate_three_c_score d = 0) ∧
    (∀ t, d.three_c = some t →
      PSLMetricsCalculator.calculate_three_c_score d =
        34 / 100 * boolToRat t.clear + 33 / 100 * boolToRat t.cheap +
          33 / 100 * boolToRat t.safe) ∧
    PSLMetricsCalculator.calculate_three_c_score d ∈
      ([0, 33 / 100, 34 / 100, 33 / 50, 67 / 100, 1] : List ℚ) := by
  refine ⟨fun h => by simp [PSLMetricsCalculator.calculate_three_c_score, h],
    fun t ht => ?_, ?_⟩
  · obtain ⟨c, ch, s⟩ := t
    cases c <;> cases ch <;> cases s <;>
      simp [PSLMetricsCalculator.calculate_three_c_score, ht, boolToRat]
  · cases hd : d.three_c with
    | none => simp [PSLMetricsCalculator.calculate_three_c_score, hd]
    | some t =>
      obtain ⟨c, ch, s⟩ := t
      cases c <;> cases ch <;> cases s <;>
        simp [PSLMetricsCalculator.calculate_three_c_score, hd] <;> norm_num

/-- C5 witness for the amended statement, at `threeCDoc`. -/
theorem claim_C5_witness :
    PSLMetricsCalculator.calculate_three_c_score threeCDoc =
      34 / 100 * boolToRat false + 33 / 100 * boolToRat true +
        33 / 100 * boolToRat true :=
  (claim_C5_amended threeCDoc).2.1 ⟨false, true, true⟩ rfl

/-- C8: rule L-02 appends exactly one error with both counts when the HYP and
ROLLBACK item counts differ (a missing section counting as zero) and appends
nothing when they agree. -/
theorem claim_C8_l02 (d : PSLDocument) (issues : List Issue) :
    (alGet d.sections "HYP" = none → LRuleValidator.hypCount d = 0) ∧
    (alGet d.sections "ROLLBACK" = none → LRuleValidator.rollbackCount d = 0) ∧
    (LRuleValidator.hypCount d ≠ LRuleValidator.rollbackCount d →
      LRuleValidator._validate_l02_hyp_rollback_pairing d issues =
        issues ++ [⟨"L-02", "error",
          LRuleValidator.l02Message (LRuleValidator.hypCount d)
            (LRuleValidator.rollbackCount d)⟩]) ∧
    (LRuleValidator.hypCount d = LRuleValidator.rollbackCount d →
      LRuleValidator._validate_l02_hyp_rollback_pairing d issues = issues) := by
  refine ⟨fun h => by simp [LRuleValidator.hypCount, h],
    fun h => by simp [LRuleValidator.rollbackCount, h], fun h => ?_, fun h => ?_⟩
  · simp [LRuleValidator._validate_l02_hyp_rollback_pairing, LRuleValidator.l02Body, h]
  · simp [LRuleValidator._validate_l02_hyp_rollback_pairing, LRuleValidator.l02Body, h]

/-- C8 witness: one HYP item against a missing ROLLBACK section yields the
single mismatch error. -/
theorem claim_C8_witness :
    LRuleValidator._validate_l02_hyp_rollback_pairing pairDoc [] =
      [] ++ [⟨"L-02", "error",
        LRuleValidator.l02Message (LRuleValidator.hypCount pairDoc)
          (LRuleValidator.rollbackCount pairDoc)⟩] :=
  (claim_C8_l02 pairDoc []).2.2.1 (by decide)

/-- `d.get(s)` after appending a single fresh binding at the end of the dict. -/
theorem alGet_append_single {α : Type} (l : List (String × α)) (k s : String) (v : α) :
    alGet (l ++ [(k, v)]) s =
      match alGet l s with
      | some v₀ => some v₀
      | none => if k = s then some v else none := by
  induction l with
  | nil => simp [alGet]
  | cons p rest ih =>
    obtain ⟨k₀, v₀⟩ := p
    by_cases h : k₀ = s <;> simp [alGet, h, ih]

/-- C9: psl_coverage is the number of completed mandatory tags over seven
(3C counting only with a structured ThreeC), and appending a section for a
tag not yet present never decreases the score. -/
theorem claim_C9_coverage :
    (∀ d : PSLDocument, PSLMetricsCalculator.calculate_psl_coverage d =
      (PSLMetricsCalculator.mandatory_sections.countP (fun s =>
        (alGet d.sections s).isSome && (!(s == "3C") || d.three_c.isSome)) : ℚ) / 7) ∧
    (∀ (d : PSLDocument) (tag : String) (xs : List String),
      alGet d.sections tag = none →
      PSLMetricsCalculator.calculate_psl_coverage d ≤
        PSLMetricsCalculator.calculate_psl_coverage
          { d with sections := d.sections ++ [(tag, xs)] }) := by
  have hlen : ((PSLMetricsCalculator.mandatory_sections.length : ℚ)) = 7 := by
    norm_num [PSLMetricsCalculator.mandatory_sections]
  constructor
  · intro d
    have hcong : PSLMetricsCalculator.mandatory_sections.countP
        (PSLMetricsCalculator.sectionCompleted d) =
        PSLMetricsCalculator.mandatory_sections.countP (fun s =>
          (alGet d.sections s).isSome && (!(s == "3C") || d.three_c.isSome)) := by
      apply List.countP_congr
      intro s _
      by_cases h : s = "3C" <;>
        simp [PSLMetricsCalculator.sectionCompleted, h]
    rw [PSLMetricsCalculator.calculate_psl_coverage, hlen, hcong]
  · intro d tag xs htag
    rw [PSLMetricsCalculator.calculate_psl_coverage,
      PSLMetricsCalculator.calculate_psl_coverage, hlen]
    have hmono : PSLMetricsCalculator.mandatory_sections.countP
        (PSLMetricsCalculator.sectionCompleted d) ≤
        PSLMetricsCalculator.mandatory_sections.countP
          (PSLMetricsCalculator.sectionCompleted
            { d with sections := d.sections ++ [(tag, xs)] }) := by
      apply List.countP_mono_left
      intro s _ hs
      rw [PSLMetricsCalculator.sectionCompleted] at hs ⊢
      rw [Bool.and_eq_true] at hs ⊢
      refine ⟨?_, hs.2⟩
      rcases Option.isSome_iff_exists.mp hs.1 with ⟨v₀, hv₀⟩
      have := alGet_append_single d.sections tag s xs
      rw [hv₀] at this
      simp [this]
    have h7 : (0 : ℚ) < 7 := by norm_num
    rw [div_le_div_iff_of_pos_right h7]
    exact_mod_cast hmono

/-- C9 witness: adding a FACT section to the empty document. -/
theorem claim_C9_witness :
    PSLMetricsCalculator.calculate_psl_coverage emptyDoc ≤
      PSLMetricsCalculator.calculate_psl_coverage
        { emptyDoc with sections := emptyDoc.sections ++ [("FACT", ["x"])] } :=
  claim_C9_coverage.2 emptyDoc "FACT" ["x"] rfl

/-- A two-constraint document for the C3 witness. -/
def csrDoc : PSLDocument :=
  ⟨"", "", "", [⟨"time", "<=", 10, none⟩, ⟨"budget", "<=", 5, none⟩],
   none, none, [], none, none⟩

/-- C3 witness: one of two constraints observed and satisfied gives 1/2. -/
theorem claim_C3_witness :
    PSLMetricsCalculator.calculate_csr csrDoc (some [("time", 5)]) =
      ((csrDoc.constraints.countP (fun c =>
        Option.any (fun v => PSLMetricsCalculator._is_constraint_satisfied c v)
          (alGet [("time", 5)] c.name)) : ℚ)) / (csrDoc.constraints.length : ℚ) :=
  (claim_C3_csr csrDoc (some [("time", 5)])).2.2 [("time", 5)] rfl (by simp [csrDoc])

/-! ## Splitting and joining lines round-trips -/

theorem splitCharAux_no_sep (c : Char) (xs : List Char) (acc : List Char)
    (h : ∀ a ∈ xs, a ≠ c) : splitCharAux c xs acc = [acc.reverse ++ xs] := by
  induction xs generalizing acc with
  | nil => simp [splitCharAux]
  | cons x xs ih =>
    have hx : x ≠ c := h x (List.mem_cons_self x xs)
    rw [splitCharAux, if_neg hx, ih (x :: acc) (fun a ha => h a (List.mem_cons_of_mem x ha))]
    simp

theorem splitCharAux_sep_split (c : Char) (xs ys acc : List Char)
    (h : ∀ a ∈ xs, a ≠ c) :
    splitCharAux c (xs ++ c :: ys) acc = (acc.reverse ++ xs) :: splitCharAux c ys [] := by
  induction xs generalizing acc with
  | nil => simp [splitCharAux]
  | cons x xs ih =>
    have hx : x ≠ c := h x (List.mem_cons_self x xs)
    rw [List.cons_append, splitCharAux, if_neg hx,
      ih (x :: acc) (fun a ha => h a (List.mem_cons_of_mem x ha))]
    simp

theorem splitCharAux_chunks_no_sep (c : Char) (xs : List Char) :
    ∀ (acc : List Char), (∀ a ∈ acc, a ≠ c) →
    ∀ chunk ∈ splitCharAux c xs acc, ∀ a ∈ chunk, a ≠ c := by
  induction xs with
  | nil =>
    intro acc hacc chunk hchunk a ha
    simp [splitCharAux] at hchunk
    subst hchunk
    exact hacc a (List.mem_reverse.mp ha)
  | cons x xs ih =>
    intro acc hacc chunk hchunk a ha
    by_cases hx : x = c
    · rw [splitCharAux, if_pos hx] at hchunk
      rcases List.mem_cons.mp hchunk with h1 | h2
      · subst h1
        exact hacc a (List.mem_reverse.mp ha)
      · exact ih [] (by simp) chunk h2 a ha
    · rw [splitCharAux, if_neg hx] at hchunk
      refine ih (x :: acc) ?_ chunk hchunk a ha
      intro b hb
      rcases List.mem_cons.mp hb with h1 | h2
      · subst h1; exact hx
      · exact hacc b h2

/-- Every line produced by `pySplitLines` is free of newlines. -/
theorem pySplitLines_no_newline (s : String) :
    ∀ l ∈ pySplitLines s, ∀ a ∈ l.data, a ≠ '\n' := by
  intro l hl a ha
  rcases List.mem_map.mp hl with ⟨chunk, hchunk, hmk⟩
  have := splitCharAux_chunks_no_sep '\n' s.data [] (by simp) chunk hchunk a
  apply this
  rw [← hmk] at ha
  exact ha

/-- `pyRstrip` only removes characters. -/
theorem pyRstrip_chars_subset (l : String) (a : Char) (ha : a ∈ (pyRstrip l).data) :
    a ∈ l.data := by
  rw [pyRstrip] at ha
  have h1 : a ∈ l.data.reverse.dropWhile isPySpace := List.mem_reverse.mp ha
  have h2 : a ∈ l.data.reverse := (List.dropWhile_sublist isPySpace).mem h1
  exact List.mem_reverse.mp h2

/-- Splitting the joined lines gives the lines back, provided they contain no
newline. -/
theorem pySplitLines_joinLines (ls : List String) (hne : ls ≠ [])
    (h : ∀ l ∈ ls, ∀ a ∈ l.data, a ≠ '\n') :
    pySplitLines (joinLines ls) = ls := by
  induction ls with
  | nil => cases hne rfl
  | cons l ls ih =>
    cases ls with
    | nil =>
      rw [joinLines, pySplitLines, pySplitChar,
        splitCharAux_no_sep '\n' l.data [] (h l (List.mem_cons_self l []))]
      rfl
    | cons l2 ls2 =>
      have hdata : (joinLines (l :: l2 :: ls2)).data =
          l.data ++ '\n' :: (joinLines (l2 :: ls2)).data := by
        have hj : joinLines (l :: l2 :: ls2) = l ++ "\n" ++ joinLines (l2 :: ls2) := rfl
        rw [hj]
        simp [String.data_append]
      rw [pySplitLines, pySplitChar, hdata,
        splitCharAux_sep_split '\n' l.data _ [] (h l (List.mem_cons_self l _))]
      have hrest : (splitCharAux '\n' (joinLines (l2 :: ls2)).data []).map String.mk =
          l2 :: ls2 :=
        ih (List.cons_ne_nil l2 ls2) (fun a ha => h a (List.mem_cons_of_mem l ha))
      rw [List.map_cons, hrest]
      rfl

/-- With no section-tag lines and no open section, the scan ignores every
line. -/
theorem scanLines_no_tags (text : String) (ls : List String)
    (secs : List (String × SecVal))
    (h : ∀ l ∈ ls, PSLFullParser.isTagLine (pyStrip l) = false) :
    PSLFullParser.scanLines text none [] secs ls = (none, [], secs) := by
  induction ls with
  | nil => rfl
  | cons l rest ih =>
    have hl : PSLFullParser.isTagLine (pyStrip l) = false := h l (List.mem_cons_self l rest)
    have hrest := ih (fun a ha => h a (List.mem_cons_of_mem l ha))
    by_cases he : pyStrip l = "" <;>
      simp [PSLFullParser.scanLines, PSLFullParser.curTruthy, he, hl, hrest]

/-- A body text with no `[...]` line parses to the empty sections dict. -/
theorem parse_sections_no_tags (text : String)
    (h : ∀ l ∈ pySplitLines text, PSLFullParser.isTagLine (pyStrip l) = false) :
    PSLFullParser._parse_sections text = [] := by
  rw [PSLFullParser._parse_sections, scanLines_no_tags text _ [] h]
  rfl

/-- C1 counterexample: on the empty text the header dict has no mandatory
keys, so `header_data['version']` raises `KeyError` and `parse` does not
return a Document (the claim asserts it returns one for every input). -/
theorem claim_C1_counterexample : PSLFullParser.parse "" = none := rfl

/-- C1 amended: when the header block does supply the four mandatory fields
and the text has no bracketed section line, `parse` returns a Document with
an empty sections mapping and no `three_c`/`gloss`. -/
theorem claim_C1_amended (psl_text : String)
    (h1 : (PSLFullParser._parse_header (PSLFullParser.headerText psl_text)).version.isSome)
    (h2 : (PSLFullParser._parse_header (PSLFullParser.headerText psl_text)).context.isSome)
    (h3 : (PSLFullParser._parse_header (PSLFullParser.headerText psl_text)).goal.isSome)
    (h4 : (PSLFullParser._parse_header (PSLFullParser.headerText psl_text)).constraints.isSome)
    (h5 : ∀ l ∈ (pySplitLines psl_text).map pyRstrip,
      PSLFullParser.isTagLine (pyStrip l) = false) :
    ∃ d : PSLDocument, PSLFullParser.parse psl_text = some d ∧
      d.sections = [] ∧ d.three_c = none ∧ d.gloss = none := by
  obtain ⟨v, hv⟩ := Option.isSome_iff_exists.mp h1
  obtain ⟨c, hc⟩ := Option.isSome_iff_exists.mp h2
  obtain ⟨g, hg⟩ := Option.isSome_iff_exists.mp h3
  obtain ⟨cons, hcons⟩ := Option.isSome_iff_exists.mp h4
  have hsec : PSLFullParser._parse_sections (PSLFullParser.sectionsText psl_text) = [] := by
    apply parse_sections_no_tags
    have hdrop : ∀ l ∈ ((pySplitLines psl_text).map pyRstrip).drop
        (PSLFullParser._find_header_end ((pySplitLines psl_text).map pyRstrip)),
        PSLFullParser.isTagLine (pyStrip l) = false :=
      fun l hl => h5 l (List.drop_subset _ _ hl)
    have hnonl : ∀ l ∈ ((pySplitLines psl_text).map pyRstrip).drop
        (PSLFullParser._find_header_end ((pySplitLines psl_text).map pyRstrip)),
        ∀ a ∈ l.data, a ≠ '\n' := by
      intro l hl a ha
      have hl2 := List.drop_subset _ _ hl
      obtain ⟨l₀, hl₀, hmk⟩ := List.mem_map.mp hl2
      have ha₀ : a ∈ l₀.data := by
        apply pyRstrip_chars_subset
        rw [hmk]
        exact ha
      exact pySplitLines_no_newline psl_text l₀ hl₀ a ha₀
    by_cases hD : ((pySplitLines psl_text).map pyRstrip).drop
        (PSLFullParser._find_header_end ((pySplitLines psl_text).map pyRstrip)) = []
    · rw [PSLFullParser.sectionsText, hD]
      intro l hl
      have : l = "" := by
        rcases List.mem_map.mp hl with ⟨chunk, hchunk, hmk⟩
        simp [joinLines, splitCharAux] at hchunk
        rw [← hmk, hchunk]
      rw [this]
      rfl
    · rw [PSLFullParser.sectionsText, pySplitLines_joinLines _ hD hnonl]
      exact hdrop
  refine ⟨⟨v, c, g, cons,
    (PSLFullParser._parse_header (PSLFullParser.headerText psl_text)).resources,
    (PSLFullParser._parse_header (PSLFullParser.headerText psl_text)).skill,
    [], none, none⟩, ?_, rfl, rfl, rfl⟩
  rw [PSLFullParser.parse]
  rw [hv, hc, hg, hcons, hsec]
  rfl

/-- A minimal well-formed header with no sections, for the C1 witness. -/
def headerOnlyText : String :=
  "!psl v0.1\ncontext: kitchen\ngoal: g\nconstraints: time<=90min"

/-- C1 witness: the amended statement applied to a concrete header-only
text. -/
theorem claim_C1_witness :
    ∃ d : PSLDocument, PSLFullParser.parse headerOnlyText = some d ∧
      d.sections = [] ∧ d.three_c = none ∧ d.gloss = none :=
  claim_C1_amended headerOnlyText (by decide) (by decide) (by decide) (by decide)
    (by decide)

/-! ## The 3C special case (claim C6) -/

/-- The invariant that every `ThreeC` stored in the dict came from
sub-parsing the full body text. -/
def TcInv (text : String) (secs : List (String × SecVal)) : Prop :=
  ∀ k t, alGet secs k = some (SecVal.tc t) → t = PSLFullParser._parse_three_c text

theorem tcInv_update_items (text : String) (secs : List (String × SecVal))
    (s : String) (xs : List String) (h : TcInv text secs) :
    TcInv text (alUpdate secs s (SecVal.items xs)) := by
  intro k t hk
  rw [alGet_alUpdate] at hk
  by_cases hs : s = k
  · rw [if_pos hs] at hk
    cases hk
  · rw [if_neg hs] at hk
    exact h k t hk

theorem scanLines_tcInv (text : String) (ls : List String) :
    ∀ (cur : Option String) (items : List String) (secs : List (String × SecVal)),
    TcInv text secs →
    TcInv text (PSLFullParser.scanLines text cur items secs ls).2.2 := by
  induction ls with
  | nil => intro cur items secs h; exact h
  | cons l rest ih =>
    intro cur items secs h
    simp only [PSLFullParser.scanLines]
    by_cases he : pyStrip l = ""
    · simp only [he, if_pos rfl]
      exact ih cur items secs h
    · rw [if_neg he]
      by_cases htag : PSLFullParser.isTagLine (pyStrip l) = true
      · rw [if_pos htag]
        apply ih
        cases cur with
        | none => exact h
        | some s =>
          show TcInv text (if s = "" then secs else alUpdate secs s (SecVal.items items))
          by_cases hs0 : s = ""
          · rw [if_pos hs0]
            exact h
          · rw [if_neg hs0]
            exact tcInv_update_items text secs s items h
      · rw [if_neg htag]
        by_cases hitem :
            (PSLFullParser.curTruthy cur && PSLFullParser.isItemLine (pyStrip l)) = true
        · rw [if_pos hitem]
          exact ih cur _ secs h
        · rw [if_neg hitem]
          by_cases h3c : (decide (cur = some "3C") && strContains (pyStrip l) ":") = true
          · rw [if_pos h3c]
            intro k t hk
            rw [alGet_alUpdate] at hk
            by_cases hs : "3C" = k
            · rw [if_pos hs] at hk
              cases hk
              rfl
            · rw [if_neg hs] at hk
              exact h k t hk
          · rw [if_neg h3c]
            exact ih cur items secs h

/-- The final flush only stores item lists, so it preserves the invariant. -/
theorem finishScan_tcInv (text : String)
    (st : Option String × List String × List (String × SecVal))
    (h : TcInv text st.2.2) : TcInv text (PSLFullParser.finishScan st) := by
  obtain ⟨cur, items, secs⟩ := st
  cases cur with
  | none => exact h
  | some s =>
    rw [PSLFullParser.finishScan]
    by_cases hit : s ≠ "" ∧ items ≠ []
    · rw [if_pos hit]
      exact tcInv_update_items text secs s items h
    · rw [if_neg hit]
      exact h

/-- A dict holding a `ThreeC` value fails the pydantic check on the
`sections` field. -/
theorem pydanticSectionsField_none_of_tc (secs : List (String × SecVal)) :
    ∀ (k : String) (t : ThreeC), alGet secs k = some (SecVal.tc t) →
    PSLFullParser.pydanticSectionsField secs = none := by
  induction secs with
  | nil => intro k t h; cases h
  | cons p rest ih =>
    intro k t h
    obtain ⟨k₀, v₀⟩ := p
    cases v₀ with
    | tc t₀ => rfl
    | items xs =>
      rw [alGet] at h
      by_cases hk : k₀ = k
      · rw [if_pos hk] at h
        cases h
      · rw [if_neg hk] at h
        rw [PSLFullParser.pydanticSectionsField, ih k t h]
        rfl

/-- C6 amended: a line containing `:` inside the 3C section triggers
`_parse_three_c` on the whole body text handed to `_parse_sections` (not on
the remaining text), so any `ThreeC` found in the sections dict equals the
sub-parse of the whole text; moreover whenever a `3C` entry exists (either a
`ThreeC` or a plain item list) the pydantic validation of the resulting
`PSLDocument` fails, so `parse` returns no Document at all. -/
theorem claim_C6_amended :
    (∀ (text k : String) (t : ThreeC),
      alGet (PSLFullParser._parse_sections text) k = some (SecVal.tc t) →
      t = PSLFullParser._parse_three_c text) ∧
    (∀ psl_text : String,
      (alGet (PSLFullParser._parse_sections (PSLFullParser.sectionsText psl_text))
        "3C").isSome →
      PSLFullParser.parse psl_text = none) := by
  constructor
  · intro text k t h
    have hinv : TcInv text (PSLFullParser._parse_sections text) := by
      rw [PSLFullParser._parse_sections]
      apply finishScan_tcInv
      apply scanLines_tcInv
      intro k₀ t₀ h₀
      cases h₀
    exact hinv k t h
  · intro psl_text hsome
    obtain ⟨val, hval⟩ := Option.isSome_iff_exists.mp hsome
    rw [PSLFullParser.parse]
    cases hv : (PSLFullParser._parse_header (PSLFullParser.headerText psl_text)).version with
    | none => rfl
    | some v =>
    cases hc : (PSLFullParser._parse_header (PSLFullParser.headerText psl_text)).context with
    | none => rfl
    | some c =>
    cases hg : (PSLFullParser._parse_header (PSLFullParser.headerText psl_text)).goal with
    | none => rfl
    | some g =>
    cases hcons : (PSLFullParser._parse_header (PSLFullParser.headerText psl_text)).constraints with
    | none => rfl
    | some cons =>
    cases val with
    | tc t =>
      rw [pydanticSectionsField_none_of_tc _ "3C" t hval]
    | items xs =>
      cases hPS : PSLFullParser.pydanticSectionsField
          (PSLFullParser._parse_sections (PSLFullParser.sectionsText psl_text)) with
      | none => rfl
      | some secs =>
        rw [hval]
        rfl

/-- The body text of the C6 counterexample. -/
def threeCText : String := "[FACT]\n- x clear: yes\n[3C]\nnote: ok"

/-- A full PSL text whose body is `threeCText`. -/
def threeCFullText : String :=
  "!psl v0.1\ncontext: k\ngoal: g\nconstraints: time<=90min\n" ++ threeCText

/-- C6 counterexample: the trigger line is `note: ok` and the remaining raw
text from it on contains no `clear: yes`, yet the stored `ThreeC` has
`clear = true` — the sub-parse read the whole body text, including the FACT
item, not the remaining text. -/
theorem claim_C6_counterexample :
    alGet (PSLFullParser._parse_sections threeCText) "3C" =
      some (SecVal.tc ⟨true, false, false⟩) ∧
    PSLFullParser._parse_three_c "note: ok" = ⟨false, false, false⟩ ∧
    strContains (pyLower "note: ok") "clear: yes" = false := by
  refine ⟨by decide, by decide, by decide⟩

/-- C6 witness for the amended statement: the stored flags at `threeCText`
equal the whole-text sub-parse, and the full document fails to parse. -/
theorem claim_C6_witness :
    ((⟨true, false, false⟩ : ThreeC) = PSLFullParser._parse_three_c threeCText) ∧
    PSLFullParser.parse threeCFullText = none :=
  ⟨claim_C6_amended.1 threeCText "3C" ⟨true, false, false⟩ (by decide),
   claim_C6_amended.2 threeCFullText (by decide)⟩

/-! ## List-item handling (claim C7) -/

/-- C7 amended: inside a section whose name is truthy (non-empty — the
`current_section and ...` guard ignores item lines of a section opened by
`[]`), a line whose stripped form starts with `-`, `1)` or `2)` (and is not
a section header) is appended to the current item list after `lstrip('- ')`
followed by `lstrip('1234567890) ')` — stripping runs per character set, not
per marker, so leading numeric content of the item text is eaten too, and
`3)`..`9)` markers are not recognized at all. -/
theorem claim_C7_amended (text : String) (s : String) (items : List String)
    (secs : List (String × SecVal)) (l : String) (rest : List String)
    (hs : s ≠ "")
    (hitem : PSLFullParser.isItemLine (pyStrip l) = true)
    (htag : PSLFullParser.isTagLine (pyStrip l) = false) :
    PSLFullParser.scanLines text (some s) items secs (l :: rest) =
      PSLFullParser.scanLines text (some s)
        (items ++ [PSLFullParser.stripMarkers (pyStrip l)]) secs rest := by
  have hne : ¬ (pyStrip l = "") := by
    intro h
    rw [h] at hitem
    exact absurd hitem (by decide)
  have hct : PSLFullParser.curTruthy (some s) = true := by
    simp [PSLFullParser.curTruthy, hs]
  simp only [PSLFullParser.scanLines]
  rw [if_neg hne, if_neg (by simp [htag]), if_pos (by simp [hct, hitem])]

/-- The body text of the C7 counterexample. -/
def itemText : String := "[FACT]\n- 600g broth\n3) apples\n[HYP]\n- x"

/-- C7 counterexample: the claim predicts FACT items
`["600g broth", "apples"]` (each line minus its marker prefix); the code
stores `["g broth"]` — the digit-set strip ate `600` and the `g`, and the
`3)` line is not a list item at all. -/
theorem claim_C7_counterexample :
    PSLFullParser._parse_sections itemText =
      [("FACT", SecVal.items ["g broth"]), ("HYP", SecVal.items ["x"])] ∧
    "g broth" ≠ "600g broth" := by
  refine ⟨by decide, by decide⟩

/-- C7 witness for the amended statement, at the line `- 600g broth`. -/
theorem claim_C7_witness :
    PSLFullParser.scanLines "" (some "FACT") [] [] ["- 600g broth"] =
      PSLFullParser.scanLines "" (some "FACT")
        ([] ++ [PSLFullParser.stripMarkers (pyStrip "- 600g broth")]) [] [] :=
  claim_C7_amended "" "FACT" [] [] "- 600g broth" [] (by decide) (by decide) (by decide)

/-! ## Empty-section commitment (claim C10) -/

/-- The effect of one scanned line, when no 3C section can be open: open a
section, append an item, or nothing. -/
inductive Ev where
  | tag (t : String)
  | item (s : String)
  | skip
deriving DecidableEq

/-- Classify a raw line the way the scanner's branches do. -/
def evOf (l : String) : Ev :=
  let line := pyStrip l
  if line = "" then Ev.skip
  else if PSLFullParser.isTagLine line then Ev.tag (PSLFullParser.tagOf line)
  else if PSLFullParser.isItemLine line then Ev.item (PSLFullParser.stripMarkers line)
  else Ev.skip

/-- The tag announced by an event, if any. -/
def evTag : Ev → Option String
  | Ev.tag t => some t
  | Ev.item _ => none
  | Ev.skip => none

/-- The tags of the section-header lines of a line list, in order. -/
def tagsOfLines (ls : List String) : List String :=
  ls.filterMap (fun l => evTag (evOf l))

/-- The scanner restricted to the branches reachable while no 3C section is
ever opened, with the same truthiness guards as the code. -/
def scanEv : Option String → List String → List (String × SecVal) → List Ev →
    Option String × List String × List (String × SecVal)
  | cur, items, secs, [] => (cur, items, secs)
  | cur, items, secs, Ev.tag t :: rest =>
    scanEv (some t) []
      (match cur with
        | some s => if s = "" then secs else alUpdate secs s (SecVal.items items)
        | none => secs) rest
  | cur, items, secs, Ev.item s :: rest =>
    if PSLFullParser.curTruthy cur then scanEv cur (items ++ [s]) secs rest
    else scanEv cur items secs rest
  | cur, items, secs, Ev.skip :: rest => scanEv cur items secs rest

/-- Does a section-tag event come before any list-item event? -/
def nextTagBeforeItem : List Ev → Bool
  | [] => false
  | Ev.tag _ :: _ => true
  | Ev.item _ :: _ => false
  | Ev.skip :: rest => nextTagBeforeItem rest

/-- The claim's configuration: tag `k` opens a section, no list-item line
occurs before the next section tag, and such a next tag exists. -/
def emptyThenTag (k : String) : List Ev → Bool
  | [] => false
  | Ev.tag t :: rest => if t = k then nextTagBeforeItem rest else emptyThenTag k rest
  | Ev.item _ :: rest => emptyThenTag k rest
  | Ev.skip :: rest => emptyThenTag k rest

theorem emptyThenTag_mem (k : String) :
    ∀ es : List Ev, emptyThenTag k es = true → k ∈ es.filterMap evTag := by
  intro es
  induction es with
  | nil => intro h; cases h
  | cons e rest ih =>
    intro h
    cases e with
    | tag t =>
      rw [emptyThenTag] at h
      by_cases ht : t = k
      · subst ht
        simp [List.filterMap_cons, evTag]
      · rw [if_neg ht] at h
        simp only [List.filterMap_cons, evTag]
        exact List.mem_cons_of_mem t (ih h)
    | item s =>
      rw [emptyThenTag] at h
      simpa [List.filterMap_cons, evTag] using ih h
    | skip =>
      rw [emptyThenTag] at h
      simpa [List.filterMap_cons, evTag] using ih h

/-- Under no-3C inputs the real scanner agrees with the event scanner. -/
theorem scanLines_eq_scanEv (text : String) (ls : List String) :
    ∀ (cur : Option String) (items : List String) (secs : List (String × SecVal)),
    cur ≠ some "3C" →
    (∀ l ∈ ls, evTag (evOf l) ≠ some "3C") →
    PSLFullParser.scanLines text cur items secs ls =
      scanEv cur items secs (ls.map evOf) := by
  induction ls with
  | nil => intro cur items secs _ _; rfl
  | cons l rest ih =>
    intro cur items secs hcur hls
    have hrest : ∀ a ∈ rest, evTag (evOf a) ≠ some "3C" :=
      fun a ha => hls a (List.mem_cons_of_mem l ha)
    simp only [PSLFullParser.scanLines, List.map_cons]
    by_cases he : pyStrip l = ""
    · have hev : evOf l = Ev.skip := by simp [evOf, he]
      rw [if_pos he, hev]
      exact ih cur items secs hcur hrest
    · rw [if_neg he]
      by_cases htag : PSLFullParser.isTagLine (pyStrip l) = true
      · have hev : evOf l = Ev.tag (PSLFullParser.tagOf (pyStrip l)) := by
          simp [evOf, he, htag]
        have htnot : PSLFullParser.tagOf (pyStrip l) ≠ "3C" := by
          have h3 := hls l (List.mem_cons_self l rest)
          rw [hev] at h3
          simpa [evTag] using h3
        rw [if_pos htag, hev]
        exact ih _ _ _ (fun hh => htnot (Option.some.inj hh)) hrest
      · by_cases hitem : PSLFullParser.isItemLine (pyStrip l) = true
        · have hev : evOf l = Ev.item (PSLFullParser.stripMarkers (pyStrip l)) := by
            simp [evOf, he, htag, hitem]
          rw [if_neg htag, hev]
          have hstep : scanEv cur items secs
              (Ev.item (PSLFullParser.stripMarkers (pyStrip l)) :: rest.map evOf) =
              if PSLFullParser.curTruthy cur then
                scanEv cur (items ++ [PSLFullParser.stripMarkers (pyStrip l)])
                  secs (rest.map evOf)
              else scanEv cur items secs (rest.map evOf) := rfl
          by_cases hct : PSLFullParser.curTruthy cur = true
          · rw [if_pos (by simp [hct, hitem]), hstep, if_pos hct]
            exact ih cur _ secs hcur hrest
          · rw [if_neg (by simp [hct]), if_neg (by simp [hcur]), hstep, if_neg hct]
            exact ih cur items secs hcur hrest
        · have hev : evOf l = Ev.skip := by simp [evOf, he, htag, hitem]
          rw [if_neg htag, hev]
          rw [if_neg (by simp [hitem]), if_neg (by simp [hcur])]
          rw [show scanEv cur items secs (Ev.skip :: rest.map evOf) =
            scanEv cur items secs (rest.map evOf) from rfl]
          exact ih cur items secs hcur hrest

/-- Which keys end mapped to an empty item list: either already committed
empty, or the open section with no items and a tag next, or a later tag
opened with no items and another tag following. -/
theorem scanEv_empty_iff (k : String) :
    ∀ (es : List Ev) (cur : Option String) (items : List String)
      (secs : List (String × SecVal)),
    (es.filterMap evTag).Nodup →
    (∀ t ∈ es.filterMap evTag, t ≠ "") →
    (∀ c, cur = some c → c ≠ "") →
    (∀ t ∈ es.filterMap evTag, alGet secs t = none ∧ cur ≠ some t) →
    (∀ c, cur = some c → alGet secs c = none) →
    (alGet (PSLFullParser.finishScan (scanEv cur items secs es)) k =
        some (SecVal.items []) ↔
      (alGet secs k = some (SecVal.items []) ∨
       (cur = some k ∧ items = [] ∧ nextTagBeforeItem es = true) ∨
       emptyThenTag k es = true)) := by
  intro es
  induction es with
  | nil =>
    intro cur items secs hnd hne hcne hfresh hcur
    cases cur with
    | none =>
      simp [scanEv, PSLFullParser.finishScan, nextTagBeforeItem, emptyThenTag]
    | some c =>
      have hc0 : c ≠ "" := hcne c rfl
      by_cases hit : items = []
      · subst hit
        simp [scanEv, PSLFullParser.finishScan, nextTagBeforeItem, emptyThenTag]
      · have hfin : PSLFullParser.finishScan (scanEv (some c) items secs []) =
            alUpdate secs c (SecVal.items items) := by
          simp [scanEv, PSLFullParser.finishScan, hit, hc0]
        rw [hfin, alGet_alUpdate]
        by_cases hk : c = k
        · subst hk
          rw [if_pos rfl]
          have hnone : alGet secs c = none := hcur c rfl
          simp [hnone, hit, nextTagBeforeItem, emptyThenTag]
        · rw [if_neg hk]
          simp [nextTagBeforeItem, emptyThenTag, hk]
  | cons e rest ih =>
    intro cur items secs hnd hne hcne hfresh hcur
    cases e with
    | skip =>
      have hnd' : (rest.filterMap evTag).Nodup := by
        simpa [List.filterMap_cons, evTag] using hnd
      have hne' : ∀ t ∈ rest.filterMap evTag, t ≠ "" :=
        fun t ht => hne t (by simpa [List.filterMap_cons, evTag] using ht)
      have hfresh' : ∀ t ∈ rest.filterMap evTag,
          alGet secs t = none ∧ cur ≠ some t :=
        fun t ht => hfresh t (by simpa [List.filterMap_cons, evTag] using ht)
      rw [show scanEv cur items secs (Ev.skip :: rest) =
          scanEv cur items secs rest from rfl,
        show nextTagBeforeItem (Ev.skip :: rest) = nextTagBeforeItem rest from rfl,
        show emptyThenTag k (Ev.skip :: rest) = emptyThenTag k rest from rfl]
      exact ih cur items secs hnd' hne' hcne hfresh' hcur
    | item s =>
      have hnd' : (rest.filterMap evTag).Nodup := by
        simpa [List.filterMap_cons, evTag] using hnd
      have hne' : ∀ t ∈ rest.filterMap evTag, t ≠ "" :=
        fun t ht => hne t (by simpa [List.filterMap_cons, evTag] using ht)
      have hfresh' : ∀ t ∈ rest.filterMap evTag,
          alGet secs t = none ∧ cur ≠ some t :=
        fun t ht => hfresh t (by simpa [List.filterMap_cons, evTag] using ht)
      rw [show emptyThenTag k (Ev.item s :: rest) = emptyThenTag k rest from rfl]
      cases cur with
      | none =>
        rw [show scanEv none items secs (Ev.item s :: rest) =
          scanEv none items secs rest from rfl]
        rw [ih none items secs hnd' hne' (fun c hc => by cases hc) hfresh'
          (fun c hc => by cases hc)]
        simp
      | some c =>
        have hct : PSLFullParser.curTruthy (some c) = true := by
          simp [PSLFullParser.curTruthy, hcne c rfl]
        rw [show scanEv (some c) items secs (Ev.item s :: rest) =
          if PSLFullParser.curTruthy (some c) then
            scanEv (some c) (items ++ [s]) secs rest
          else scanEv (some c) items secs rest from rfl, if_pos hct]
        rw [ih (some c) (items ++ [s]) secs hnd' hne' hcne hfresh' hcur]
        simp [nextTagBeforeItem]
    | tag t =>
      have htags : (Ev.tag t :: rest).filterMap evTag = t :: rest.filterMap evTag := by
        simp [List.filterMap_cons, evTag]
      rw [htags] at hnd
      have hnd' : (rest.filterMap evTag).Nodup := hnd.of_cons
      have htnotin : t ∉ rest.filterMap evTag := (List.nodup_cons.mp hnd).1
      have hmemt : t ∈ (Ev.tag t :: rest).filterMap evTag := by
        rw [htags]
        exact List.mem_cons_self t _
      have hmemrest : ∀ t' ∈ rest.filterMap evTag,
          t' ∈ (Ev.tag t :: rest).filterMap evTag := by
        intro t' ht'
        rw [htags]
        exact List.mem_cons_of_mem t ht'
      have hne' : ∀ t' ∈ rest.filterMap evTag, t' ≠ "" :=
        fun t' ht' => hne t' (hmemrest t' ht')
      have ht0 : t ≠ "" := hne t hmemt
      have hcne' : ∀ c', some t = some c' → c' ≠ "" := by
        intro c' hc'
        cases hc'
        exact ht0
      rw [show nextTagBeforeItem (Ev.tag t :: rest) = true from rfl]
      cases cur with
      | none =>
        rw [show scanEv none items secs (Ev.tag t :: rest) =
          scanEv (some t) [] secs rest from rfl]
        have hfresh' : ∀ t' ∈ rest.filterMap evTag,
            alGet secs t' = none ∧ some t ≠ some t' := by
          intro t' ht'
          refine ⟨(hfresh t' (hmemrest t' ht')).1, fun hh => ?_⟩
          exact htnotin (Option.some.inj hh ▸ ht')
        have hcur' : ∀ c', some t = some c' → alGet secs c' = none := by
          intro c' hc'
          cases hc'
          exact (hfresh t hmemt).1
        rw [ih (some t) [] secs hnd' hne' hcne' hfresh' hcur']
        by_cases htk : t = k
        · subst htk
          have hC : emptyThenTag t rest = false := by
            cases hC0 : emptyThenTag t rest
            · rfl
            · exact absurd (emptyThenTag_mem t rest hC0) htnotin
          rw [show emptyThenTag t (Ev.tag t :: rest) = nextTagBeforeItem rest from by
            simp [emptyThenTag]]
          simp [hC]
        · rw [show emptyThenTag k (Ev.tag t :: rest) = emptyThenTag k rest from by
            simp [emptyThenTag, htk]]
          simp [htk]
      | some c =>
        have hc0 : c ≠ "" := hcne c rfl
        rw [show scanEv (some c) items secs (Ev.tag t :: rest) =
          scanEv (some t) []
            (if c = "" then secs else alUpdate secs c (SecVal.items items))
            rest from rfl, if_neg hc0]
        have hcnott : c ≠ t := fun hh => (hfresh t hmemt).2 (congrArg some hh)
        have hfresh' : ∀ t' ∈ rest.filterMap evTag,
            alGet (alUpdate secs c (SecVal.items items)) t' = none ∧
            some t ≠ some t' := by
          intro t' ht'
          have h1 := hfresh t' (hmemrest t' ht')
          constructor
          · rw [alGet_alUpdate]
            have hct : c ≠ t' := fun hh => h1.2 (congrArg some hh)
            rw [if_neg hct]
            exact h1.1
          · intro hh
            exact htnotin (Option.some.inj hh ▸ ht')
        have hcur' : ∀ c', some t = some c' →
            alGet (alUpdate secs c (SecVal.items items)) c' = none := by
          intro c' hc'
          cases hc'
          rw [alGet_alUpdate, if_neg hcnott]
          exact (hfresh t hmemt).1
        rw [ih (some t) [] _ hnd' hne' hcne' hfresh' hcur']
        rw [alGet_alUpdate]
        by_cases hck : c = k
        · subst hck
          rw [if_pos rfl]
          have hA : alGet secs c = none := hcur c rfl
          have htc : t ≠ c := fun hh => hcnott hh.symm
          have hC : emptyThenTag c rest = false := by
            cases hC0 : emptyThenTag c rest
            · rfl
            · have hmem := emptyThenTag_mem c rest hC0
              exact absurd rfl (hfresh c (hmemrest c hmem)).2
          rw [show emptyThenTag c (Ev.tag t :: rest) = emptyThenTag c rest from by
            simp [emptyThenTag, htc]]
          simp [hA, hC, htc]
        · rw [if_neg hck]
          by_cases htk : t = k
          · subst htk
            have hC : emptyThenTag t rest = false := by
              cases hC0 : emptyThenTag t rest
              · rfl
              · exact absurd (emptyThenTag_mem t rest hC0) htnotin
            rw [show emptyThenTag t (Ev.tag t :: rest) = nextTagBeforeItem rest from by
              simp [emptyThenTag]]
            simp [hC, hck]
          · rw [show emptyThenTag k (Ev.tag t :: rest) = emptyThenTag k rest from by
              simp [emptyThenTag, htk]]
            simp [htk, hck]

/-- C10 amended: provided no line opens a `3C` section (whose sub-parse stops
scanning early), no section tag is repeated (a later occurrence overwrites
the committed list), and no tag is the empty string (`[]` opens a falsy
section that Python never commits), a section is mapped to an empty item
list exactly when its tag line has no list-item line before the next section
tag line, and such a next tag exists. -/
theorem claim_C10_amended (text : String) (k : String)
    (h3c : ∀ l ∈ pySplitLines text, evTag (evOf l) ≠ some "3C")
    (hnodup : (tagsOfLines (pySplitLines text)).Nodup)
    (hnoempty : "" ∉ tagsOfLines (pySplitLines text)) :
    (alGet (PSLFullParser._parse_sections text) k = some (SecVal.items []) ↔
      emptyThenTag k ((pySplitLines text).map evOf) = true) := by
  rw [PSLFullParser._parse_sections,
    scanLines_eq_scanEv text (pySplitLines text) none [] [] (by simp) h3c]
  have hft : ((pySplitLines text).map evOf).filterMap evTag =
      tagsOfLines (pySplitLines text) := by
    rw [tagsOfLines, List.filterMap_map]
    rfl
  rw [scanEv_empty_iff k ((pySplitLines text).map evOf) none [] []
    (by rw [hft]; exact hnodup)
    (by rw [hft]; intro t ht heq; exact hnoempty (heq ▸ ht))
    (fun c hc => by cases hc)
    (by intro t _; exact ⟨rfl, by simp⟩)
    (fun c hc => by cases hc)]
  simp [alGet]

/-- The C10 counterexample text: the 3C sub-parse fires on `x: y` and stops
scanning, so the empty section `[A]` followed by the tag `[B]` never reaches
the mapping. -/
def earlyExitText : String := "[3C]\nx: y\n[A]\n[B]\n- b"

/-- C10 counterexample: tag `A` opens an empty section followed by another
tag, yet `A` is absent from the sections mapping — the claimed equivalence
fails on inputs with a 3C early exit. -/
theorem claim_C10_counterexample :
    emptyThenTag "A" ((pySplitLines earlyExitText).map evOf) = true ∧
    alGet (PSLFullParser._parse_sections earlyExitText) "A" = none := by
  refine ⟨by decide, by decide⟩

/-- A no-3C, no-repeat, no-empty-tag input for the C10 witness. -/
def noExitText : String := "[A]\n[B]\n- b"

/-- C10 witness for the amended statement at a concrete input. -/
theorem claim_C10_witness :
    alGet (PSLFullParser._parse_sections noExitText) "A" =
        some (SecVal.items []) ↔
      emptyThenTag "A" ((pySplitLines noExitText).map evOf) = true :=
  claim_C10_amended noExitText "A" (by decide) (by decide) (by decide)
